import Mathlib

/-!
# Verification of the ygai workflow engine core

Shallow embedding of the parts of the `ygai` command-line LLM client that the
specification's testable properties are about, together with proofs or
refutations of those properties.

Embedded source files:
* `src/utils/model/tokens.ts` — token counting;
* `src/utils/model/limits.ts` — model limits and `calculateInputBudget`;
* `src/workflows/savers/selective-saver.ts` — the `SelectiveSaver` checkpoint
  filter, and its configuration in `src/workflows/workflow-manager.ts`;
* `src/workflows/workflow-builder.ts` — the graph builder;
* `src/workflows/nodes/context-window-node.ts` — trimming;
* `src/workflows/nodes/file-processing-node.ts` — file ingestion;
* `src/workflows/nodes/mcp-llm-node.ts` and `src/workflows/response-helpers.ts`
  — the tool-using LLM path;
* `src/hooks/sandbox.ts` — the hook sandbox (value-isolation and timing);
* the hook node of the workflow (`createHookNode`).

JavaScript `number` values are modelled as `Int` where the code can produce or
receive negative values, and as `Nat` where the quantity is a length or a
count by construction.  `Math.floor(x * 0.5)`, `Math.floor(x * 0.1)`,
`Math.floor(x * 0.8)` and `Math.floor(x * 0.25)` on integral inputs are
modelled as the exact floor divisions `Int.fdiv x 2`, `Int.fdiv x 10`,
`Int.fdiv (x * 8) 10` and `Int.fdiv (x * 25) 100`; for the integer magnitudes
involved here the double-precision rounding of the TypeScript source agrees
with the exact computation.  Fallible code is modelled with `Except`/`Option`.
-/

namespace Ygai

/-! ## Conversation messages

A role-tagged text payload (`@langchain/core` messages as used by the repo:
system / human / ai / tool, with the content modelled as a string, matching
the `typeof content === 'string'` path of `countMessageTokens`). -/

inductive Role where
  | system
  | human
  | ai
  | tool
deriving DecidableEq

structure Msg where
  role : Role
  content : String
deriving DecidableEq

/-! ## Token counting — `src/utils/model/tokens.ts`

`countTokens` wraps `js-tiktoken`'s `encodingForModel` in a `try`/`catch`:
when no tokenizer is obtainable for the model (or encoding fails) it falls
back to `Math.ceil(text.length / 4)`.  The ambient tokenizer capability is an
explicit environment: `encodingFor model = none` models
`encodingForModel(model)` throwing. -/

structure TokenizerEnv where
  encodingFor : String → Option (String → Nat)

/-- `countTokens` from `src/utils/model/tokens.ts`: exact tokenizer when
available, else the `Math.ceil(text.length / 4)` character heuristic.  The
`try`/`catch` of the source makes the function total. -/
def countTokens (env : TokenizerEnv) (text : String) (model : String) : Nat :=
  match env.encodingFor model with
  | some encode => encode text
  | none => (text.length + 3) / 4

/-- `countMessageTokens` from `src/utils/model/tokens.ts`: a `reduce` over the
messages, starting from `0`, adding `countTokens` of each message's content. -/
def countMessageTokens (env : TokenizerEnv) (messages : List Msg) (model : String) : Nat :=
  messages.foldl (fun total message => total + countTokens env message.content model) 0

/-! ## Model limits — `src/utils/model/limits.ts` -/

structure ModelLimits where
  contextWindow : Int
  maxOutputTokens : Option Int
deriving DecidableEq

/-- JavaScript `a || b` on an optional number: `undefined` and `0` are falsy. -/
def jsOrNum (a : Option Int) (b : Int) : Int :=
  match a with
  | some x => if x = 0 then b else x
  | none => b

/-- JavaScript `a || b` where both sides are optional numbers. -/
def jsOrNumOpt (a b : Option Int) : Option Int :=
  match a with
  | some x => if x = 0 then b else some x
  | none => b

/-- `DEFAULT_MODEL_LIMITS` from `src/utils/model/limits.ts`, as an ordered
association list (JS object literals preserve insertion order, which the
partial-match loop of `findModelLimits` iterates in). -/
def DEFAULT_MODEL_LIMITS : List (String × ModelLimits) :=
  [ ("gpt-4", ⟨8192, some 4096⟩)
  , ("gpt-4-turbo", ⟨128000, some 4096⟩)
  , ("gpt-4-turbo-preview", ⟨128000, some 4096⟩)
  , ("gpt-4o", ⟨128000, some 16384⟩)
  , ("gpt-4o-mini", ⟨128000, some 16384⟩)
  , ("gpt-4-32k", ⟨32768, some 4096⟩)
  , ("gpt-3.5-turbo", ⟨16385, some 4096⟩)
  , ("gpt-3.5-turbo-16k", ⟨16385, some 4096⟩)
  , ("claude-3-haiku", ⟨200000, some 4096⟩)
  , ("claude-3-sonnet", ⟨200000, some 4096⟩)
  , ("claude-3-opus", ⟨200000, some 4096⟩)
  , ("claude-3-5-sonnet", ⟨200000, some 8192⟩)
  , ("claude-3-5-haiku", ⟨200000, some 8192⟩)
  , ("gemini-pro", ⟨32760, some 8192⟩)
  , ("gemini-1.5-pro", ⟨2097152, some 8192⟩)
  , ("gemini-1.5-flash", ⟨1048576, some 8192⟩)
  , ("llama-2-7b", ⟨4096, some 2048⟩)
  , ("llama-2-13b", ⟨4096, some 2048⟩)
  , ("llama-2-70b", ⟨4096, some 2048⟩)
  , ("llama-3-8b", ⟨8192, some 4096⟩)
  , ("llama-3-70b", ⟨8192, some 4096⟩)
  , ("llama-3.1-8b", ⟨131072, some 4096⟩)
  , ("llama-3.1-70b", ⟨131072, some 4096⟩)
  , ("llama-3.1-405b", ⟨131072, some 4096⟩)
  , ("mistral-7b", ⟨8192, some 4096⟩)
  , ("mistral-8x7b", ⟨32768, some 4096⟩)
  , ("mistral-medium", ⟨32768, some 4096⟩)
  , ("mistral-large", ⟨32768, some 4096⟩)
  , ("command", ⟨4096, some 4096⟩)
  , ("command-nightly", ⟨4096, some 4096⟩)
  , ("command-r", ⟨128000, some 4096⟩)
  , ("command-r-plus", ⟨128000, some 4096⟩)
  , ("deepseek-chat", ⟨32768, some 4096⟩)
  , ("deepseek-coder", ⟨16384, some 4096⟩)
  , ("deepseek-chat-v3", ⟨64000, some 8192⟩)
  , ("deepseek-chat-v3-0324", ⟨64000, some 8192⟩)
  , ("vicuna-7b", ⟨2048, some 1024⟩)
  , ("vicuna-13b", ⟨2048, some 1024⟩)
  , ("alpaca-7b", ⟨2048, some 1024⟩)
  , ("wizardlm-7b", ⟨2048, some 1024⟩)
  , ("wizardlm-13b", ⟨2048, some 1024⟩) ]

/-- Substring containment, `normalizedName.includes(pattern)`. -/
def strIncludes (haystack needle : String) : Bool :=
  (List.range (haystack.length + 1)).any fun i =>
    needle.isPrefixOf (haystack.drop i)

/-- `findModelLimits` from `src/utils/model/limits.ts`: exact match on the
lower-cased name first, then the first entry whose key occurs as a substring
of the name. -/
def findModelLimits (modelName : String) : Option ModelLimits :=
  let normalizedName := modelName.toLower
  match (DEFAULT_MODEL_LIMITS.lookup normalizedName) with
  | some limits => some limits
  | none =>
    match DEFAULT_MODEL_LIMITS.find? (fun entry => strIncludes normalizedName entry.1) with
    | some entry => some entry.2
    | none => none

/-- `getModelLimits` from `src/utils/model/limits.ts`.  `configLimits?.contextWindow || 0`
makes a missing or zero config value falsy; only then are the defaults
consulted. -/
def getModelLimits (modelName : String) (cfgContextWindow cfgMaxOutputTokens : Option Int) :
    ModelLimits :=
  let cw : Int := jsOrNum cfgContextWindow 0
  if cw = 0 then
    match findModelLimits modelName with
    | some defaultLimits =>
        { contextWindow := defaultLimits.contextWindow
          maxOutputTokens := jsOrNumOpt cfgMaxOutputTokens defaultLimits.maxOutputTokens }
    | none =>
        { contextWindow := 4096
          maxOutputTokens := jsOrNumOpt cfgMaxOutputTokens (some 2048) }
  else
    { contextWindow := cw, maxOutputTokens := cfgMaxOutputTokens }

/-- `calculateInputBudget` from `src/utils/model/limits.ts`:
`contextWindow − min(maxOutputTokens, ⌊contextWindow/2⌋) − min(reserveTokens, ⌊contextWindow/10⌋)`,
floored at `⌊contextWindow/10⌋` by the final `Math.max`. -/
def calculateInputBudget (contextWindow maxOutputTokens reserveTokens : Int) : Int :=
  let cappedOutputTokens := min maxOutputTokens (Int.fdiv contextWindow 2)
  let cappedReserveTokens := min reserveTokens (Int.fdiv contextWindow 10)
  let budget := contextWindow - cappedOutputTokens - cappedReserveTokens
  max budget (Int.fdiv contextWindow 10)

/-! ## Selective checkpoint saver — `src/workflows/savers/selective-saver.ts`

The wrapped store is modelled by the list of checkpoints it has durably
written, in write order; `put` either appends to it (forwarded) or returns it
unchanged (suppressed).  The only part of the runnable config that
`shouldCheckpoint` inspects is
`config?.configurable?.transientData?.currentNodeName`, so `put` is modelled
over that optional tag directly. -/

structure SelectiveSaverConfig where
  checkpointNodes : List String
deriving DecidableEq

namespace SelectiveSaver

/-- `extractLastNodeVisited`: reads the `currentNodeName` tag; the
`currentNodeName || null` coercion maps the empty string (falsy) to `null`. -/
def extractLastNodeVisited (currentNodeName : Option String) : Option String :=
  match currentNodeName with
  | some s => if s = "" then none else some s
  | none => none

/-- `shouldCheckpoint`: no detectable node means no checkpoint; otherwise the
node name must be in the configured allow-list. -/
def shouldCheckpoint (cfg : SelectiveSaverConfig) (currentNodeName : Option String) : Bool :=
  match extractLastNodeVisited currentNodeName with
  | none => false
  | some lastNodeVisited => cfg.checkpointNodes.contains lastNodeVisited

/-- `put`: forwards to the wrapped saver exactly when `shouldCheckpoint`;
otherwise the underlying store is untouched. -/
def put {Checkpoint : Type} (cfg : SelectiveSaverConfig) (currentNodeName : Option String)
    (checkpoint : Checkpoint) (store : List Checkpoint) : List Checkpoint :=
  if shouldCheckpoint cfg currentNodeName then store ++ [checkpoint] else store

end SelectiveSaver

/-- The configuration `WorkflowManager.createCheckpointer` installs
(`src/workflows/workflow-manager.ts`): only the `'output'` node checkpoints. -/
def workflowSaverConfig : SelectiveSaverConfig :=
  { checkpointNodes := ["output"] }

/-! ## Claim C1 — checkpoint filtering -/

/-- **C1.** With the checkpointer configured by the workflow manager
(allow-list `["output"]`), a `put` call is forwarded to the wrapped store —
i.e. the store grows by exactly that checkpoint — if and only if the
`currentNodeName` tag in the transient data equals `"output"`; for an absent
tag or any other node name the underlying store is left unchanged. -/
theorem selectiveSaver_put_forwards_iff_output {Checkpoint : Type}
    (currentNodeName : Option String) (checkpoint : Checkpoint) (store : List Checkpoint) :
    (SelectiveSaver.put workflowSaverConfig currentNodeName checkpoint store
        = store ++ [checkpoint] ↔ currentNodeName = some "output")
    ∧ (currentNodeName ≠ some "output" →
        SelectiveSaver.put workflowSaverConfig currentNodeName checkpoint store = store) := by
  constructor
  · constructor
    · intro h
      by_contra hne
      rw [SelectiveSaver.put] at h
      cases currentNodeName with
      | none => simp [SelectiveSaver.shouldCheckpoint, SelectiveSaver.extractLastNodeVisited] at h
      | some s =>
        by_cases hs : s = ""
        · subst hs
          simp [SelectiveSaver.shouldCheckpoint, SelectiveSaver.extractLastNodeVisited] at h
        · have hso : s ≠ "output" := by
            intro hq; exact hne (by rw [hq])
          simp [SelectiveSaver.shouldCheckpoint, SelectiveSaver.extractLastNodeVisited,
            workflowSaverConfig, hs, hso] at h
    · intro h
      subst h
      simp [SelectiveSaver.put, SelectiveSaver.shouldCheckpoint,
        SelectiveSaver.extractLastNodeVisited, workflowSaverConfig]
  · intro hne
    rw [SelectiveSaver.put]
    cases currentNodeName with
    | none => simp [SelectiveSaver.shouldCheckpoint, SelectiveSaver.extractLastNodeVisited]
    | some s =>
      by_cases hs : s = ""
      · subst hs
        simp [SelectiveSaver.shouldCheckpoint, SelectiveSaver.extractLastNodeVisited]
      · have hso : s ≠ "output" := by
          intro hq; exact hne (by rw [hq])
        simp [SelectiveSaver.shouldCheckpoint, SelectiveSaver.extractLastNodeVisited,
          workflowSaverConfig, hs, hso]

/-- Witness for C1 at concrete inputs: a `put` tagged `file_processing`
leaves the store untouched, and one tagged `output` appends. -/
theorem selectiveSaver_put_forwards_iff_output_witness :
    SelectiveSaver.put workflowSaverConfig (some "file_processing") "cp2" ["cp1"] = ["cp1"]
    ∧ SelectiveSaver.put workflowSaverConfig (some "output") "cp2" ["cp1"] = ["cp1", "cp2"] := by
  refine ⟨(selectiveSaver_put_forwards_iff_output (some "file_processing") "cp2" ["cp1"]).2
    (by decide), ?_⟩
  exact (selectiveSaver_put_forwards_iff_output (some "output") "cp2" ["cp1"]).1.2 rfl

/-! ## Claim C5 — input-budget bounds -/

/-- **C5 (counterexample).** The claim quantifies over *all* `maxOutputTokens`
and `reserve` values, but `Math.min(maxOutputTokens, …)` keeps a negative
`maxOutputTokens` as-is, and subtracting it pushes the budget *above* the
context window: `calculateInputBudget 100 (-1000) 0 = 1100 > 100`. -/
theorem calculateInputBudget_above_window_counterexample :
    calculateInputBudget 100 (-1000) 0 = 1100 ∧ ¬ calculateInputBudget 100 (-1000) 0 ≤ 100 := by
  constructor <;> decide

/-- **C5 (amended).** For every `contextWindow > 0` and *non-negative*
`maxOutputTokens` and `reserve`, the budget lies between
`⌊contextWindow/10⌋` and `contextWindow`. -/
theorem calculateInputBudget_bounds (contextWindow maxOutputTokens reserveTokens : Int)
    (hcw : 0 < contextWindow) (hmo : 0 ≤ maxOutputTokens) (hrt : 0 ≤ reserveTokens) :
    Int.fdiv contextWindow 10 ≤ calculateInputBudget contextWindow maxOutputTokens reserveTokens
    ∧ calculateInputBudget contextWindow maxOutputTokens reserveTokens ≤ contextWindow := by
  rw [calculateInputBudget]
  rw [Int.fdiv_eq_ediv contextWindow (by norm_num), Int.fdiv_eq_ediv contextWindow (by norm_num)]
  constructor
  · exact le_max_right _ _
  · have h2 : (0:Int) ≤ contextWindow / 2 := by positivity
    have h10 : (0:Int) ≤ contextWindow / 10 := by positivity
    have h10le : contextWindow / 10 ≤ contextWindow := by omega
    have hcap : 0 ≤ min maxOutputTokens (contextWindow / 2) := le_min hmo h2
    have hres : 0 ≤ min reserveTokens (contextWindow / 10) := le_min hrt h10
    have : contextWindow - min maxOutputTokens (contextWindow / 2)
        - min reserveTokens (contextWindow / 10) ≤ contextWindow := by omega
    exact max_le this h10le

/-- Witness for C5 (amended) at `contextWindow = 100`, `maxOutputTokens = 4096`,
`reserve = 100`. -/
theorem calculateInputBudget_bounds_witness :
    Int.fdiv 100 10 ≤ calculateInputBudget 100 4096 100
    ∧ calculateInputBudget 100 4096 100 ≤ 100 :=
  calculateInputBudget_bounds 100 4096 100 (by decide) (by decide) (by decide)

/-! ## Claim C9 — token counting never throws, sums per message -/

/-- Helper: the `reduce` in `countMessageTokens` computes the sum of the
per-message estimates. -/
theorem foldl_add_eq_sum (f : Msg → Nat) (messages : List Msg) (init : Nat) :
    messages.foldl (fun total m => total + f m) init = init + (messages.map f).sum := by
  induction messages generalizing init with
  | nil => simp
  | cons m ms ih =>
    simp only [List.foldl_cons, List.map_cons, List.sum_cons]
    rw [ih]
    omega

/-- **C9.** Token counting is total: when the tokenizer environment has no
encoder for the model (`encodingForModel` throws in the source, caught by the
`try`/`catch`), `countTokens` silently degrades to the
`Math.ceil(length/4)` heuristic; and `countMessageTokens` always equals the
sum of the per-message `countTokens` estimates. -/
theorem countTokens_total_and_sums (env : TokenizerEnv) (text model : String)
    (messages : List Msg) (henc : env.encodingFor model = none) :
    countTokens env text model = (text.length + 3) / 4
    ∧ countMessageTokens env messages model
        = (messages.map (fun m => countTokens env m.content model)).sum := by
  constructor
  · rw [countTokens, henc]
  · rw [countMessageTokens, foldl_add_eq_sum]
    simp

/-- Witness for C9: with a tokenizer environment that has no encoder,
`countTokens` of a 5-character text is `⌈5/4⌉ = 2` and a two-message sequence
counts `2 + 1 = 3` tokens. -/
theorem countTokens_total_and_sums_witness :
    countTokens ⟨fun _ => none⟩ "abcde" "mystery-model" = 2
    ∧ countMessageTokens ⟨fun _ => none⟩
        [⟨Role.human, "abcde"⟩, ⟨Role.ai, "hi"⟩] "mystery-model" = 3 := by
  have h := countTokens_total_and_sums ⟨fun _ => none⟩ "abcde" "mystery-model"
    [⟨Role.human, "abcde"⟩, ⟨Role.ai, "hi"⟩] rfl
  exact ⟨h.1.trans (by decide), h.2.trans (by decide)⟩

/-! ## Workflow builder — `src/workflows/workflow-builder.ts`

`buildConversationWorkflow` adds nodes and then wires them with `addEdge`
calls.  The saver and the ordering claims only need the edge list, so the
builder is embedded as the list of `(from, to)` edges in `addEdge` order.
Only the parts of the execution configuration the builder reads are kept:
the pre/post hook lists and the MCP server config keys. -/

structure HookConfig where
  file : String
  function : String
deriving DecidableEq

structure BuilderConfig where
  preHooks : List HookConfig
  postHooks : List HookConfig
  mcpServerKeys : List String
deriving DecidableEq

/-- `` `pre_hook_${index}` ``. -/
def preHookNodeName (index : Nat) : String := "pre_hook_" ++ toString index

/-- `` `post_hook_${index}` ``. -/
def postHookNodeName (index : Nat) : String := "post_hook_" ++ toString index

/-- One step of the `forEach` loops that thread `previousNode` through the
hook chain, accumulating one edge per hook. -/
def chainStep (acc : List (String × String) × String) (nodeName : String) :
    List (String × String) × String :=
  (acc.1 ++ [(acc.2, nodeName)], nodeName)

/-- `buildConversationWorkflow` (edges only), in the order the source calls
`addEdge`: start → initialization → file_processing → pre-hook chain →
context_window → (mcp_llm | standard_llm) → output → post-hook chain →
end. -/
def buildConversationWorkflowEdges (cfg : BuilderConfig) : List (String × String) :=
  let hasMcpServers := cfg.mcpServerKeys.length > 0
  let preNames := (List.range cfg.preHooks.length).map preHookNodeName
  let postNames := (List.range cfg.postHooks.length).map postHookNodeName
  let llmNodeName := if hasMcpServers then "mcp_llm" else "standard_llm"
  let preChain := preNames.foldl chainStep ([], "file_processing")
  let postChain := postNames.foldl chainStep ([], "output")
  [("__start__", "initialization"), ("initialization", "file_processing")]
    ++ preChain.1
    ++ [(preChain.2, "context_window"), ("context_window", llmNodeName),
        (llmNodeName, "output")]
    ++ postChain.1
    ++ [(postChain.2, "__end__")]

/-- The full linear node order the builder actually wires (a separate,
order-explicit description to compare the edge list against). -/
def builderNodeOrder (cfg : BuilderConfig) : List String :=
  "__start__" :: "initialization" :: "file_processing"
    :: (List.range cfg.preHooks.length).map preHookNodeName
    ++ "context_window"
    :: (if cfg.mcpServerKeys.length > 0 then "mcp_llm" else "standard_llm")
    :: "output"
    :: (List.range cfg.postHooks.length).map postHookNodeName
    ++ ["__end__"]

/-- Consecutive pairs of a list: the edge list of the linear chain through it. -/
def consecutivePairs (nodes : List String) : List (String × String) :=
  nodes.zip nodes.tail

/-- The edges a `foldl chainStep` chain contributes, in closed form. -/
def chainEdges (prev : String) : List String → List (String × String)
  | [] => []
  | n :: ns => (prev, n) :: chainEdges n ns

/-- The final `previousNode` after a chain. -/
def chainLast (prev : String) : List String → String
  | [] => prev
  | n :: ns => chainLast n ns

theorem foldl_chainStep_eq (names : List String) (acc : List (String × String)) (prev : String) :
    names.foldl chainStep (acc, prev) = (acc ++ chainEdges prev names, chainLast prev names) := by
  induction names generalizing acc prev with
  | nil => simp [chainEdges, chainLast]
  | cons n ns ih =>
    simp only [List.foldl_cons, chainStep, chainEdges, chainLast]
    rw [ih]
    simp

theorem consecutivePairs_cons_cons (a b : String) (l : List String) :
    consecutivePairs (a :: b :: l) = (a, b) :: consecutivePairs (b :: l) := rfl

theorem consecutivePairs_chain (prev : String) (names rest : List String) :
    consecutivePairs (prev :: (names ++ rest))
      = chainEdges prev names ++ consecutivePairs (chainLast prev names :: rest) := by
  induction names generalizing prev with
  | nil => simp [chainEdges, chainLast]
  | cons n ns ih =>
    rw [List.cons_append, consecutivePairs_cons_cons]
    simp only [chainEdges, chainLast]
    rw [ih]
    simp

/-! ## Claim C2 — pipeline stage order -/

/-- **C2 (counterexample).** With a single configured post-hook, the built
graph routes `output → post_hook_0 → __end__`: the post-hook node comes
*after* the output node, and the node before `__end__` is `post_hook_0`, not
`output` — refuting "every post-hook node precedes the output node and the
output node is the last node before the graph's end". -/
theorem buildEdges_posthook_after_output_counterexample :
    (("output", "post_hook_0")
        ∈ buildConversationWorkflowEdges ⟨[], [⟨"h.js", "f"⟩], []⟩)
    ∧ (("post_hook_0", "__end__")
        ∈ buildConversationWorkflowEdges ⟨[], [⟨"h.js", "f"⟩], []⟩)
    ∧ ¬ (("output", "__end__")
        ∈ buildConversationWorkflowEdges ⟨[], [⟨"h.js", "f"⟩], []⟩) := by
  refine ⟨?_, ?_, ?_⟩ <;> decide

/-- **C2 (amended).** For every execution configuration the built graph is
exactly the linear chain initialization → file_processing → pre-hooks (in
order) → context_window → LLM node (`mcp_llm` when MCP servers are
configured, else `standard_llm`) → output → post-hooks (in order) → end:
post-hooks run *after* the output node, and the node before `__end__` is the
last post-hook, or `output` when none are configured. -/
theorem buildEdges_eq_linear_chain (cfg : BuilderConfig) :
    buildConversationWorkflowEdges cfg = consecutivePairs (builderNodeOrder cfg) := by
  rw [buildConversationWorkflowEdges, builderNodeOrder]
  rw [foldl_chainStep_eq, foldl_chainStep_eq]
  simp only [List.cons_append, List.append_assoc, List.nil_append]
  rw [consecutivePairs_cons_cons, consecutivePairs_cons_cons]
  rw [consecutivePairs_chain]
  rw [consecutivePairs_cons_cons, consecutivePairs_cons_cons, consecutivePairs_cons_cons]
  rw [consecutivePairs_chain]
  simp [consecutivePairs]

/-! ## Context-window node — `src/workflows/nodes/context-window-node.ts`

The node's local constants (`totalBudget`, `fileTokens`, `historyBudget`) are
named top-level definitions so the theorems can speak about them; the node
definition inlines them exactly as the source computes them. -/

/-- `totalBudget` as the context-window node computes it: 80% of the model
capacity (`Math.floor(totalCapacity * 0.8)`), then `calculateInputBudget`
with `limits.maxOutputTokens || 4096` and a reserve of 100. -/
def ctxTotalBudget (modelName : String) (cfgContextWindow cfgMaxOutputTokens : Option Int) : Int :=
  let limits := getModelLimits modelName cfgContextWindow cfgMaxOutputTokens
  let usableCapacity := Int.fdiv (limits.contextWindow * 8) 10
  calculateInputBudget usableCapacity (jsOrNum limits.maxOutputTokens 4096) 100

/-- `fileTokens`: token count of the ephemeral file messages (0 when there
are none — the source short-circuits on `fileMessages.length > 0`). -/
def ctxFileTokens (env : TokenizerEnv) (modelName : String) (fileMessages : List Msg) : Int :=
  if fileMessages.length > 0 then (countMessageTokens env fileMessages modelName : Int) else 0

/-- `historyBudget = max(totalBudget − fileTokens, Math.floor(totalBudget * 0.25))`. -/
def ctxHistoryBudget (env : TokenizerEnv) (modelName : String)
    (cfgContextWindow cfgMaxOutputTokens : Option Int) (fileMessages : List Msg) : Int :=
  let totalBudget := ctxTotalBudget modelName cfgContextWindow cfgMaxOutputTokens
  max (totalBudget - ctxFileTokens env modelName fileMessages) (Int.fdiv (totalBudget * 25) 100)

/-- Modelled from the spec: the oldest message that trimming may drop.
Trimming "only cut[s] on clean message boundaries" and "preserv[es] any
system message" (`includeSystem: true`), so the droppable oldest message is
the first non-system one; `none` when every message is a system message. -/
def dropOldestNonSystem : List Msg → Option (List Msg)
  | [] => none
  | m :: ms =>
    if m.role = Role.system then (dropOldestNonSystem ms).map (fun rest => m :: rest)
    else some ms

theorem dropOldestNonSystem_length :
    ∀ (l l' : List Msg), dropOldestNonSystem l = some l' → l'.length < l.length := by
  intro l
  induction l with
  | nil => intro l' h; simp [dropOldestNonSystem] at h
  | cons m ms ih =>
    intro l' h
    rw [dropOldestNonSystem] at h
    by_cases hr : m.role = Role.system
    · rw [if_pos hr] at h
      cases hd : dropOldestNonSystem ms with
      | none => rw [hd] at h; simp at h
      | some rest =>
        rw [hd] at h
        have h2 : m :: rest = l' := by simpa using h
        have hlt := ih rest hd
        subst h2
        simp only [List.length_cons]
        omega
    · rw [if_neg hr] at h
      cases h
      simp

/-- Modelled from the spec: `trimMessages` from `@langchain/core` (an external
library, not part of this repository), as the node invokes it — strategy
`'last'` (keep the most recent messages), `includeSystem: true` (preserve
system messages), `allowPartial: false` (whole messages only): repeatedly drop
the oldest non-system message until the sequence fits `maxTokens`; if nothing
more can be dropped the remainder is returned as-is. -/
def trimMessages (env : TokenizerEnv) (model : String) (maxTokens : Int) (messages : List Msg) :
    List Msg :=
  if (countMessageTokens env messages model : Int) ≤ maxTokens then messages
  else
    match h : dropOldestNonSystem messages with
    | some shorter => trimMessages env model maxTokens shorter
    | none => messages
termination_by messages.length
decreasing_by exact dropOldestNonSystem_length _ _ h

/-- `createContextWindowNode` from `src/workflows/nodes/context-window-node.ts`,
restricted to its effect on the persistent message sequence.  Empty history
returns `{}` (no change); within budget returns `{}` (fast path); otherwise
history is trimmed to `historyBudget` and, if the result together with the
file tokens still exceeds `totalBudget`, the node throws the
"Context window overflow" error. -/
def createContextWindowNode (env : TokenizerEnv) (modelName : String)
    (cfgContextWindow cfgMaxOutputTokens : Option Int) (fileMessages : List Msg)
    (messages : List Msg) : Except String (List Msg) :=
  if messages.length = 0 then .ok messages
  else if (countMessageTokens env messages modelName : Int)
      + ctxFileTokens env modelName fileMessages
      ≤ ctxTotalBudget modelName cfgContextWindow cfgMaxOutputTokens then .ok messages
  else if (countMessageTokens env
        (trimMessages env modelName
          (ctxHistoryBudget env modelName cfgContextWindow cfgMaxOutputTokens fileMessages)
          messages) modelName : Int)
      + ctxFileTokens env modelName fileMessages
      > ctxTotalBudget modelName cfgContextWindow cfgMaxOutputTokens then
    .error "Context window overflow"
  else
    .ok (trimMessages env modelName
      (ctxHistoryBudget env modelName cfgContextWindow cfgMaxOutputTokens fileMessages)
      messages)

/-! ## Claim C6 — trimming fast path and idempotence -/

/-- **C6.** (i) When history plus file context already fits the total budget,
the context-window node returns the message sequence unchanged (fast path);
(ii) running the node twice in succession yields the same sequence as running
it once: whatever a successful run returns, a second run returns unchanged. -/
theorem contextWindowNode_fastpath_and_idempotent (env : TokenizerEnv) (modelName : String)
    (cfgContextWindow cfgMaxOutputTokens : Option Int) (fileMessages messages : List Msg) :
    ((countMessageTokens env messages modelName : Int)
        + ctxFileTokens env modelName fileMessages
        ≤ ctxTotalBudget modelName cfgContextWindow cfgMaxOutputTokens →
      createContextWindowNode env modelName cfgContextWindow cfgMaxOutputTokens fileMessages
          messages = .ok messages)
    ∧ (∀ result,
        createContextWindowNode env modelName cfgContextWindow cfgMaxOutputTokens fileMessages
            messages = .ok result →
        createContextWindowNode env modelName cfgContextWindow cfgMaxOutputTokens fileMessages
            result = .ok result) := by
  constructor
  · intro h
    rw [createContextWindowNode]
    by_cases h0 : messages.length = 0
    · rw [if_pos h0]
    · rw [if_neg h0, if_pos h]
  · intro result hrun
    rw [createContextWindowNode] at hrun
    by_cases h0 : messages.length = 0
    · rw [if_pos h0] at hrun
      cases hrun
      rw [createContextWindowNode, if_pos h0]
    · rw [if_neg h0] at hrun
      by_cases h1 : (countMessageTokens env messages modelName : Int)
          + ctxFileTokens env modelName fileMessages
          ≤ ctxTotalBudget modelName cfgContextWindow cfgMaxOutputTokens
      · rw [if_pos h1] at hrun
        cases hrun
        rw [createContextWindowNode]
        by_cases h0' : messages.length = 0
        · rw [if_pos h0']
        · rw [if_neg h0', if_pos h1]
      · rw [if_neg h1] at hrun
        by_cases h2 : (countMessageTokens env
              (trimMessages env modelName
                (ctxHistoryBudget env modelName cfgContextWindow cfgMaxOutputTokens fileMessages)
                messages) modelName : Int)
            + ctxFileTokens env modelName fileMessages
            > ctxTotalBudget modelName cfgContextWindow cfgMaxOutputTokens
        · rw [if_pos h2] at hrun
          exact absurd hrun (by simp)
        · rw [if_neg h2] at hrun
          cases hrun
          rw [createContextWindowNode]
          by_cases h0' : (trimMessages env modelName
              (ctxHistoryBudget env modelName cfgContextWindow cfgMaxOutputTokens fileMessages)
              messages).length = 0
          · rw [if_pos h0']
          · rw [if_neg h0', if_pos (not_lt.mp h2)]

/-- A tokenizer environment with no exact tokenizer for any model (everything
falls back to the character heuristic); used for concrete evaluations. -/
def heuristicOnlyEnv : TokenizerEnv := ⟨fun _ => none⟩

/-- Witness for C6 at a concrete input: one short human message, no files, a
configured context window of 1000 tokens — the combined count (1 token) fits
the budget (320 tokens), so the node is the identity, and re-running it is
also the identity. -/
theorem contextWindowNode_fastpath_and_idempotent_witness :
    ((countMessageTokens heuristicOnlyEnv [⟨Role.human, "hi"⟩] "m" : Int)
        + ctxFileTokens heuristicOnlyEnv "m" []
        ≤ ctxTotalBudget "m" (some 1000) none)
    ∧ createContextWindowNode heuristicOnlyEnv "m" (some 1000) none [] [⟨Role.human, "hi"⟩]
        = .ok [⟨Role.human, "hi"⟩]
    ∧ createContextWindowNode heuristicOnlyEnv "m" (some 1000) none [] [⟨Role.human, "hi"⟩]
        = .ok [⟨Role.human, "hi"⟩] := by
  have hfit : (countMessageTokens heuristicOnlyEnv [⟨Role.human, "hi"⟩] "m" : Int)
      + ctxFileTokens heuristicOnlyEnv "m" []
      ≤ ctxTotalBudget "m" (some 1000) none := by decide
  have hrun := (contextWindowNode_fastpath_and_idempotent heuristicOnlyEnv "m" (some 1000) none []
    [⟨Role.human, "hi"⟩]).1 hfit
  exact ⟨hfit, hrun,
    (contextWindowNode_fastpath_and_idempotent heuristicOnlyEnv "m" (some 1000) none []
      [⟨Role.human, "hi"⟩]).2 [⟨Role.human, "hi"⟩] hrun⟩

/-! ## File-processing node — `src/workflows/nodes/file-processing-node.ts`

The filesystem and the external file-reader capability
(`readFileAsMarkdown`) are an explicit environment.  `Promise.all` over the
per-file promises rejects as soon as any one rejects; it is modelled as a
sequential collection that propagates the first error. -/

structure FileContext where
  filePath : String
  content : String
deriving DecidableEq

structure FileEnv where
  /-- `fs.existsSync`. -/
  existsSync : String → Bool
  /-- `readFileAsMarkdown` — external reader capability; may raise a
  processing error. -/
  readFileAsMarkdown : String → Except String FileContext

/-- `Promise.all`: all results in order, or the failure of any member. -/
def promiseAll {α : Type} : List (Except String α) → Except String (List α)
  | [] => .ok []
  | .error e :: _ => .error e
  | .ok a :: rest => (promiseAll rest).map (fun as => a :: as)

/-- `processFilesInParallel`: each path is checked with `fs.existsSync`
(throwing `File does not exist` when absent) and then read; the results are
joined positionally by `Promise.all`. -/
def processFilesInParallel (env : FileEnv) (filePaths : List String) :
    Except String (List FileContext) :=
  promiseAll (filePaths.map fun filePath =>
    if env.existsSync filePath = false then .error ("File does not exist: " ++ filePath)
    else env.readFileAsMarkdown filePath)

/-- `generateFilesContextString`: `null` for an empty file set, else the
`CONTEXT:` bundle over all files. -/
def generateFilesContextString (filesContext : List FileContext) : Option String :=
  if filesContext.length = 0 then none
  else some ("CONTEXT:\n " ++ String.intercalate "\n\n---\n\n"
    (filesContext.map fun file =>
      "File: " ++ file.filePath ++ "\n" ++ "Content: " ++ file.content ++ "\n" ++ "END CONTEXT"))

/-- `createFileProcessingNode`, restricted to its data effect: produces the
processed-file records and the synthetic context message for the transient
data (the persistent state delta is always `{}`).  With no configured paths it
stores empty lists; otherwise a failed read or missing file fails the whole
node. -/
def createFileProcessingNode (env : FileEnv) (filePaths : List String) :
    Except String (List FileContext × List Msg) :=
  if filePaths.length = 0 then .ok ([], [])
  else
    (processFilesInParallel env filePaths).map fun processedFiles =>
      match generateFilesContextString processedFiles with
      | some s => (processedFiles, [⟨Role.human, s⟩])
      | none => (processedFiles, [])

/-! ## Claim C8 — missing file fails the whole node -/

/-- If any listed path is missing, the parallel read fails. -/
theorem processFilesInParallel_error_of_missing (env : FileEnv) (filePaths : List String)
    (p : String) (hmem : p ∈ filePaths) (hmiss : env.existsSync p = false) :
    ∃ e, processFilesInParallel env filePaths = .error e := by
  rw [processFilesInParallel]
  induction filePaths with
  | nil => cases hmem
  | cons q qs ih =>
    rw [List.map_cons]
    rcases List.mem_cons.mp hmem with hq | hq
    · subst hq
      rw [if_pos hmiss]
      exact ⟨_, rfl⟩
    · cases hfq : (if env.existsSync q = false then
          Except.error ("File does not exist: " ++ q) else env.readFileAsMarkdown q) with
      | error e => exact ⟨e, rfl⟩
      | ok a =>
        rcases ih hq with ⟨e, he⟩
        refine ⟨e, ?_⟩
        simp only [promiseAll, he, Except.map]

/-- **C8.** If any one configured file path does not exist, the
file-processing node fails as a whole — it returns an error, so no partial
set of files is carried into a synthetic context message; and on success the
node produces one record per configured path (nothing dropped). -/
theorem fileProcessingNode_fails_on_missing (env : FileEnv) (filePaths : List String)
    (p : String) (hmem : p ∈ filePaths) (hmiss : env.existsSync p = false) :
    (∃ e, createFileProcessingNode env filePaths = .error e)
    ∧ ∀ processedFiles messages,
        createFileProcessingNode env filePaths = .ok (processedFiles, messages) → False := by
  have hlen : filePaths.length ≠ 0 := by
    intro h0
    rw [List.length_eq_zero] at h0
    subst h0
    cases hmem
  rcases processFilesInParallel_error_of_missing env filePaths p hmem hmiss with ⟨e, he⟩
  constructor
  · refine ⟨e, ?_⟩
    rw [createFileProcessingNode, if_neg hlen, he]
    rfl
  · intro processedFiles messages hok
    rw [createFileProcessingNode, if_neg hlen, he] at hok
    exact Except.noConfusion hok

/-- Witness for C8: a two-path configuration in which `b.txt` is missing —
the node errors even though `a.txt` reads fine. -/
theorem fileProcessingNode_fails_on_missing_witness :
    "b.txt" ∈ ["a.txt", "b.txt"]
    ∧ ∃ e, createFileProcessingNode
        ⟨fun path => path = "a.txt", fun path => .ok ⟨path, "content"⟩⟩
        ["a.txt", "b.txt"] = .error e := by
  refine ⟨by decide, ?_⟩
  exact (fileProcessingNode_fails_on_missing
    ⟨fun path => path = "a.txt", fun path => .ok ⟨path, "content"⟩⟩
    ["a.txt", "b.txt"] "b.txt" (by decide) (by decide)).1

/-! ## Hook sandbox — `src/hooks/sandbox.ts`

### Value isolation (claim C7)

JavaScript has reference semantics: a hook mutating its `state`/`data`
arguments mutates whatever objects those references point at.  That is
modelled with an explicit heap — a list of host objects addressed by index.
`createSandbox` builds fresh copies of the caller's state and data
(`stateCopy` rebuilt field-by-field, `dataCopy = JSON.parse(JSON.stringify(data))`,
sandbox.ts lines 135–144) and hands the hook references to the *copies*; the
hook may mutate through the references it received, and its explicit return
value is the only thing the caller consumes. -/

/-- A JSON-representable value: the shape that survives
`JSON.parse(JSON.stringify(…))`; models the transient data handed to hooks. -/
inductive JVal where
  | null
  | bool (b : Bool)
  | num (n : Int)
  | str (s : String)
  | arr (elems : List JVal)
  | obj (fields : List (String × JVal))

mutual

/-- `JSON.parse(JSON.stringify(value))`: a structural deep copy. -/
def jsonClone : JVal → JVal
  | .null => .null
  | .bool b => .bool b
  | .num n => .num n
  | .str s => .str s
  | .arr elems => .arr (jsonCloneList elems)
  | .obj fields => .obj (jsonCloneFields fields)

def jsonCloneList : List JVal → List JVal
  | [] => []
  | v :: vs => jsonClone v :: jsonCloneList vs

def jsonCloneFields : List (String × JVal) → List (String × JVal)
  | [] => []
  | (k, v) :: fs => (k, jsonClone v) :: jsonCloneFields fs

end

mutual

theorem jsonClone_eq_self : ∀ v, jsonClone v = v
  | .null => rfl
  | .bool _ => rfl
  | .num _ => rfl
  | .str _ => rfl
  | .arr elems => by rw [jsonClone, jsonCloneList_eq_self]
  | .obj fields => by rw [jsonClone, jsonCloneFields_eq_self]

theorem jsonCloneList_eq_self : ∀ vs, jsonCloneList vs = vs
  | [] => rfl
  | v :: vs => by rw [jsonCloneList, jsonClone_eq_self, jsonCloneList_eq_self]

theorem jsonCloneFields_eq_self : ∀ fs, jsonCloneFields fs = fs
  | [] => rfl
  | (k, v) :: fs => by rw [jsonCloneFields, jsonClone_eq_self, jsonCloneFields_eq_self]

end

/-- The simplified message object `createSandbox` builds per message:
`{ type: msg.getType(), content: msg.content?.toString() || '' }`. -/
structure MsgView where
  type : Role
  content : String
deriving DecidableEq

/-- `stateCopy` (sandbox.ts lines 137–142): the caller's messages projected
to fresh plain objects. -/
def stateCopyOf (messages : List Msg) : List MsgView :=
  messages.map fun msg => ⟨msg.role, msg.content⟩

/-- A heap cell: the caller's live state object, a sandbox-made state copy,
or a JSON data object. -/
inductive HostObj where
  | stateObj (messages : List Msg)
  | stateCopyObj (messages : List MsgView)
  | dataObj (value : JVal)

/-- The messages stored in the state object at `addr` (the caller's
`state.messages`). -/
def stateMessagesAt (heap : List HostObj) (addr : Nat) : List Msg :=
  match heap.getD addr (.stateObj []) with
  | .stateObj messages => messages
  | _ => []

/-- The JSON value stored in the data object at `addr` (the caller's
transient data). -/
def dataValueAt (heap : List HostObj) (addr : Nat) : JVal :=
  match heap.getD addr (.dataObj .null) with
  | .dataObj value => value
  | _ => .null

/-- A hook's dynamic behaviour with respect to the two references it
receives: arbitrary mutation of each and an arbitrary returned value
(`HookResult`, with `none` standing for `null`/`undefined`). -/
structure HookBehavior where
  mutateState : List MsgView → List MsgView
  mutateData : JVal → JVal
  result : List MsgView → JVal → Option JVal

/-- `createSandbox` from `src/hooks/sandbox.ts` on the heap: read the
caller's state and data, allocate *fresh* cells holding `stateCopy` and
`dataCopy`, let the hook mutate (only) the cells it was handed, and return
the hook's explicit result.  The returned heap is the post-hook heap. -/
def createSandboxHeap (heap : List HostObj) (stateAddr dataAddr : Nat)
    (hook : HookBehavior) : List HostObj × Option JVal :=
  let stateCopy := stateCopyOf (stateMessagesAt heap stateAddr)
  let dataCopy := jsonClone (dataValueAt heap dataAddr)
  let stateCopyAddr := heap.length
  let dataCopyAddr := heap.length + 1
  let heap1 := heap ++ [.stateCopyObj stateCopy, .dataObj dataCopy]
  let heap2 := (heap1.set stateCopyAddr (.stateCopyObj (hook.mutateState stateCopy))).set
      dataCopyAddr (.dataObj (hook.mutateData dataCopy))
  (heap2, hook.result stateCopy dataCopy)

/-! ## Claim C7 — hook isolation -/

/-- **C7.** Whatever mutations a hook performs on the `state`/`data`
arguments it receives, the caller's actual state and transient data are
untouched: after `createSandbox` runs, the heap cells at the caller's state
and data addresses hold exactly what they held before, and the only
information flowing back to the caller is the hook's explicit return value,
computed from value-equal copies of the caller's data. -/
theorem sandbox_isolates_caller_state (heap : List HostObj) (stateAddr dataAddr : Nat)
    (hook : HookBehavior) (hs : stateAddr < heap.length) (hd : dataAddr < heap.length) :
    ((createSandboxHeap heap stateAddr dataAddr hook).1.getD stateAddr (.stateObj [])
        = heap.getD stateAddr (.stateObj []))
    ∧ ((createSandboxHeap heap stateAddr dataAddr hook).1.getD dataAddr (.dataObj .null)
        = heap.getD dataAddr (.dataObj .null))
    ∧ ((createSandboxHeap heap stateAddr dataAddr hook).2
        = hook.result (stateCopyOf (stateMessagesAt heap stateAddr))
            (dataValueAt heap dataAddr)) := by
  have hset : ∀ (l : List HostObj) (i j : Nat) (v : HostObj) (d : HostObj), i ≠ j →
      (l.set j v).getD i d = l.getD i d := by
    intro l i j v d hne
    simp [List.getD, List.getElem?_set_ne (Ne.symm hne)]
  refine ⟨?_, ?_, ?_⟩
  · rw [createSandboxHeap]
    rw [hset _ _ _ _ _ (by omega), hset _ _ _ _ _ (by omega)]
    exact List.getD_append _ _ _ _ hs
  · rw [createSandboxHeap]
    rw [hset _ _ _ _ _ (by omega), hset _ _ _ _ _ (by omega)]
    exact List.getD_append _ _ _ _ hd
  · rw [createSandboxHeap, jsonClone_eq_self]

/-- Witness for C7: a concrete heap (one state object with one message, one
data object) and a maximally hostile hook that wipes both of its arguments
and returns a replacement object — the caller's cells are unchanged and only
the returned object comes back. -/
theorem sandbox_isolates_caller_state_witness :
    ((createSandboxHeap [.stateObj [⟨Role.human, "hi"⟩], .dataObj (.str "orig")] 0 1
        ⟨fun _ => [], fun _ => .null, fun _ _ => some (.obj [("answer", .num 42)])⟩).1.getD 0
          (.stateObj [])
        = .stateObj [⟨Role.human, "hi"⟩])
    ∧ ((createSandboxHeap [.stateObj [⟨Role.human, "hi"⟩], .dataObj (.str "orig")] 0 1
        ⟨fun _ => [], fun _ => .null, fun _ _ => some (.obj [("answer", .num 42)])⟩).1.getD 1
          (.dataObj .null)
        = .dataObj (.str "orig"))
    ∧ ((createSandboxHeap [.stateObj [⟨Role.human, "hi"⟩], .dataObj (.str "orig")] 0 1
        ⟨fun _ => [], fun _ => .null, fun _ _ => some (.obj [("answer", .num 42)])⟩).2
        = some (.obj [("answer", .num 42)])) := by
  have h := sandbox_isolates_caller_state [.stateObj [⟨Role.human, "hi"⟩], .dataObj (.str "orig")]
    0 1 ⟨fun _ => [], fun _ => .null, fun _ _ => some (.obj [("answer", .num 42)])⟩
    (by decide) (by decide)
  exact ⟨h.1, h.2.1, h.2.2⟩

/-! ### Timing (claim C3)

`createSandbox` enforces its 5000 ms limit in two places, both covering only
the *top-level evaluation* of the hook file: the `{ timeout: HOOK_TIMEOUT }`
option of `script.runInContext` (which interrupts a busy loop in the
synchronously executed module body) and the `setTimeout` race in
`executeWithTimeout`.  The subsequent invocation of the located hook function
— `await Promise.resolve(hookFunction(stateCopy, dataCopy, configCopy))`,
sandbox.ts line 148 — runs under **no** timer at all.  The timing model makes
the wall-clock demand of each phase explicit (`none` = the phase never
finishes on its own, e.g. `while (true) {}`). -/

def HOOK_TIMEOUT : Nat := 5000

inductive SandboxOutcome where
  /-- The hook returned normally after the given total wall-clock time. -/
  | completes (elapsedMillis : Nat)
  /-- A "Hook execution timed out after 5000ms" error surfaced. -/
  | timedOut
  /-- The awaited invocation never settles: the sandbox silently hangs. -/
  | hangsForever
deriving DecidableEq

/-- Timing model of `createSandbox`: the top-level evaluation is cut off at
`HOOK_TIMEOUT` by the vm timeout; the hook-function invocation that follows
has no racing timer, so its duration — finite or infinite — is simply
awaited. -/
def createSandboxTiming (topLevelMillis callMillis : Option Nat) : SandboxOutcome :=
  match topLevelMillis with
  | none => .timedOut
  | some t =>
    if HOOK_TIMEOUT < t then .timedOut
    else
      match callMillis with
      | none => .hangsForever
      | some c => .completes (t + c)

/-! ## Claim C3 — hook timeout does not cover the hook call -/

/-- **C3 (code bug).** A hook file whose top level evaluates quickly but
whose exported function loops forever makes the sandbox hang forever — no
timeout error ever surfaces, because no timer races the function invocation;
likewise a function that merely takes 60 s completes normally, a full minute
past the 5000 ms the claim allows.  Only a runaway *top-level* evaluation is
cut off at the timeout. -/
theorem sandboxTiming_call_not_bounded :
    createSandboxTiming (some 1) none = SandboxOutcome.hangsForever
    ∧ createSandboxTiming (some 1) (some 60000) = SandboxOutcome.completes 60001
    ∧ createSandboxTiming none none = SandboxOutcome.timedOut
    ∧ createSandboxTiming (some 999999) (some 0) = SandboxOutcome.timedOut := by
  refine ⟨rfl, ?_, rfl, ?_⟩ <;> decide

/-! ## Hook node — `createHookNode` (workflow hook node)

The node marks itself as current (`hook_<functionName>`), runs the sandbox,
and merges a non-null object result into the transient variable bag with
`{ ...transientData.variables, ...hookResult }`; it returns `{}` as its
persistent-state delta. -/

/-- The transient workflow data fields (`src/workflows/types.ts`), with the
variable bag as a key-lookup function. -/
structure TransientData where
  fileMessages : List Msg
  /-- The mutable variable bag — `variables` in the source (`variables` is a
  reserved word in Lean). -/
  vars : String → Option JVal
  processedFiles : List FileContext
  workflowId : String
  currentNodeName : Option String

/-- JS object spread `{ ...base, ...extra }`, viewed through key lookup:
keys of `extra` override, all other keys fall through to `base`. -/
def objectSpread (base extra : String → Option JVal) : String → Option JVal :=
  fun key =>
    match extra key with
    | some v => some v
    | none => base key

/-- `createHookNode`'s successful run, given the sandbox's validated result
(`some bag` for an object, `none` for `null`/`undefined`): updates
`currentNodeName`, merges the result into the variable bag, and returns the
(empty) persistent-state delta. -/
def createHookNodeRun (hookFunctionName : String)
    (hookResult : Option (String → Option JVal)) (transientData : TransientData) :
    TransientData × Option (List Msg) :=
  let marked := { transientData with currentNodeName := some ("hook_" ++ hookFunctionName) }
  match hookResult with
  | some result => ({ marked with vars := objectSpread marked.vars result }, none)
  | none => (marked, none)

/-! ## Claim C10 — hook-result merge -/

/-- **C10.** After a successful hook node whose hook returned an object `R`:
every key of `R` now maps to `R`'s value (overwriting), every other key keeps
its previous value; a `null`/`undefined` result leaves the bag untouched;
and apart from the variable bag (and the node-name marker) nothing in the
transient data changes, while the persistent-state delta is empty in every
case. -/
theorem hookNode_merges_result (hookFunctionName : String) (result : String → Option JVal)
    (transientData : TransientData) :
    (∀ key value, result key = some value →
      (createHookNodeRun hookFunctionName (some result) transientData).1.vars key
        = some value)
    ∧ (∀ key, result key = none →
      (createHookNodeRun hookFunctionName (some result) transientData).1.vars key
        = transientData.vars key)
    ∧ (createHookNodeRun hookFunctionName none transientData).1.vars
        = transientData.vars
    ∧ (createHookNodeRun hookFunctionName (some result) transientData).1.fileMessages
        = transientData.fileMessages
    ∧ (createHookNodeRun hookFunctionName (some result) transientData).1.processedFiles
        = transientData.processedFiles
    ∧ (createHookNodeRun hookFunctionName (some result) transientData).1.workflowId
        = transientData.workflowId
    ∧ (createHookNodeRun hookFunctionName (some result) transientData).1.currentNodeName
        = some ("hook_" ++ hookFunctionName)
    ∧ (createHookNodeRun hookFunctionName (some result) transientData).2 = none
    ∧ (createHookNodeRun hookFunctionName none transientData).2 = none := by
  refine ⟨?_, ?_, rfl, rfl, rfl, rfl, rfl, rfl, rfl⟩
  · intro key value hkey
    simp [createHookNodeRun, objectSpread, hkey]
  · intro key hkey
    simp [createHookNodeRun, objectSpread, hkey]

/-- Witness for C10 at a concrete bag `{x ↦ 0, y ↦ "keep"}` and hook result
`{x ↦ 1}`: `x` is overwritten, `y` survives. -/
theorem hookNode_merges_result_witness :
    ((createHookNodeRun "f"
        (some fun key => if key = "x" then some (.num 1) else none)
        ⟨[], (fun key => if key = "x" then some (.num 0) else
            if key = "y" then some (.str "keep") else none), [], "wf-1", none⟩).1.vars "x"
      = some (.num 1))
    ∧ ((createHookNodeRun "f"
        (some fun key => if key = "x" then some (.num 1) else none)
        ⟨[], (fun key => if key = "x" then some (.num 0) else
            if key = "y" then some (.str "keep") else none), [], "wf-1", none⟩).1.vars "y"
      = some (.str "keep")) := by
  refine ⟨(hookNode_merges_result "f" _ _).1 "x" (.num 1) rfl, ?_⟩
  have h := (hookNode_merges_result "f"
    (fun key => if key = "x" then some (.num 1) else none)
    ⟨[], (fun key => if key = "x" then some (.num 0) else
        if key = "y" then some (.str "keep") else none), [], "wf-1", none⟩).2.1 "y" rfl
  rw [h]
  rfl

/-! ## Prompt assembly and the MCP LLM node

`src/models/prompt-template.ts` (`createAndFormatChatPrompt`),
`src/workflows/response-helpers.ts` (`prepareLLMMessages`) and
`src/workflows/nodes/mcp-llm-node.ts` (`createMcpLLMNode`), restricted to the
message sequences they produce.  Template rendering
(`…PromptTemplate.fromTemplate(tpl).invoke(variables)`) is an external
capability, represented by a rendering environment already specialised to the
run's variable bag. -/

structure PromptEnv where
  renderSystem : String → String
  renderUser : String → String

/-- `createAndFormatChatPrompt` from `src/models/prompt-template.ts`: system
message, then the existing messages (file context + history), then the
current human message — from the user template when configured, else from
`variables.user_input`.  (When neither exists the source leaves
`humanMessage` as `null`, which throws when spread downstream; that branch
yields `[]` here and is not exercised below.)  Returns
`(messages, humanMessage)`. -/
def createAndFormatChatPrompt (env : PromptEnv) (systemPrompt : String)
    (userPrompt userInputVar : Option String) (existingMessages : List Msg) :
    List Msg × List Msg :=
  let systemMessage : List Msg := [⟨Role.system, env.renderSystem systemPrompt⟩]
  let humanMessage : List Msg :=
    match userPrompt with
    | some tpl => [⟨Role.human, env.renderUser tpl⟩]
    | none =>
      match userInputVar with
      | some userInput => [⟨Role.human, userInput⟩]
      | none => []
  (systemMessage ++ existingMessages ++ humanMessage, humanMessage)

/-- `prepareLLMMessages` from `src/workflows/response-helpers.ts`:
`existingMessages = [...fileMessages, ...historyFiltered]` with system
messages filtered out of the history, passed to
`createAndFormatChatPrompt`. -/
def prepareLLMMessages (env : PromptEnv) (systemPrompt : String)
    (userPrompt userInputVar : Option String) (fileMessages historyMessages : List Msg) :
    List Msg × List Msg :=
  let historyFiltered := historyMessages.filter fun msg =>
    match msg.role with
    | Role.system => false
    | _ => true
  createAndFormatChatPrompt env systemPrompt userPrompt userInputVar
    (fileMessages ++ historyFiltered)

/-- `createMcpLLMNode` from `src/workflows/nodes/mcp-llm-node.ts`, restricted
to the message sequence it returns:
`{ messages: [...humanMessage, ...response.messages] }`, where `response`
comes from invoking the react agent (an external capability) on the prepared
messages.  The state channel has no reducer, so this list *replaces* the
persistent message sequence. -/
def mcpLLMNodeMessages (env : PromptEnv) (systemPrompt : String)
    (userPrompt userInputVar : Option String) (fileMessages : List Msg)
    (agent : List Msg → List Msg) (stateMessages : List Msg) : List Msg :=
  let prepared := prepareLLMMessages env systemPrompt userPrompt userInputVar
    fileMessages stateMessages
  prepared.2 ++ agent prepared.1

/-- Modelled from the spec: the response of LangGraph's `createReactAgent`
(external to this repository) — the agent "run[s] to completion … and
return[s] a finished message list", i.e. its message state: the messages it
was invoked with followed by the generated reply. -/
def demoReactAgent (messages : List Msg) : List Msg :=
  messages ++ [⟨Role.ai, "ok"⟩]

/-- A rendering environment whose templates contain no placeholders, so
rendering is the identity. -/
def literalPromptEnv : PromptEnv := ⟨fun s => s, fun s => s⟩

/-- The synthetic file-context message of a one-file run. -/
def demoFileContextMsg : Msg :=
  ⟨Role.human, "CONTEXT:\n File: a.txt\nContent: data\nEND CONTEXT"⟩

/-- A two-message session history. -/
def demoHistory : List Msg := [⟨Role.human, "hi"⟩, ⟨Role.ai, "hello"⟩]

/-! ## Claim C4 — append-only persistent message sequence -/

/-- **C4 (code bug).** On the tool-using (MCP) path the persistent message
sequence is *not* append-only: for the concrete run with history
`[human "hi", ai "hello"]`, one file-context message and user prompt
`"new"`, the node's returned sequence starts with the new human message —
whatever the agent answers, the incoming history is not a prefix of it — and
(with the agent response modelled from the spec) the ephemeral file-context
message ends up in the persistent sequence, which
`src/workflows/response-helpers.ts` itself promises never happens
("fileMessages remain ephemeral (not stored in state)"). -/
theorem mcpLLMNode_not_append_only :
    (∀ agent : List Msg → List Msg,
      ¬ demoHistory <+: mcpLLMNodeMessages literalPromptEnv "sys" (some "new") none
          [demoFileContextMsg] agent demoHistory)
    ∧ demoFileContextMsg ∈ mcpLLMNodeMessages literalPromptEnv "sys" (some "new") none
        [demoFileContextMsg] demoReactAgent demoHistory := by
  constructor
  · intro agent h
    rcases h with ⟨tail, ht⟩
    have hhead := congrArg List.head? ht
    simp only [demoHistory, mcpLLMNodeMessages, prepareLLMMessages, createAndFormatChatPrompt,
      literalPromptEnv, List.cons_append, List.head?_cons] at hhead
    have : "hi" = "new" := congrArg Msg.content (Option.some.inj hhead)
    simp at this
  · decide

end Ygai
